import Mathlib

/-!
Shallow embedding of Miri's restricted mmap/munmap shims
(`src/tools/miri/src/shims/unix/mem.rs`) together with the parts of the
interpreter machine they touch.  Pure argument decoding is skipped (the
shims receive already-decoded integers); the allocator, the last-error
slot and the libc constant registry are external collaborators of the
shim and are modelled from the specification's description of their
contracts.
-/

namespace MiriMem

/-- Kind tag distinguishing mmap-backed allocations from every other
allocation kind (`MiriMemoryKind::Mmap` versus the rest). -/
inductive MemKind where
  | mmap
  | other
deriving DecidableEq

/-- Modelled from the spec: an allocation record owned by the host
allocator subsystem (`base pointer`, `size in bytes`, `alignment`,
`kind tag`); the shim only sees allocations through the allocate and
deallocate primitives. -/
structure Allocation where
  base : Nat
  size : Nat
  align : Nat
  kind : MemKind
deriving DecidableEq

/-- Modelled from the spec: the registry of OS/libc symbolic constants
(`eval_libc_i32`), resolved once per target platform.  Flag and
protection constants are kept as 32-bit patterns (`Nat`), errno codes as
integers. -/
structure LibcConsts where
  MAP_PRIVATE : Nat
  MAP_SHARED : Nat
  MAP_ANONYMOUS : Nat
  MAP_FIXED : Nat
  PROT_READ : Nat
  PROT_WRITE : Nat
  EINVAL : Int
  ENOTSUP : Int

/-- The constants as resolved for a Linux target. -/
def linuxLibc : LibcConsts :=
  { MAP_PRIVATE := 2, MAP_SHARED := 1, MAP_ANONYMOUS := 32, MAP_FIXED := 16,
    PROT_READ := 1, PROT_WRITE := 2, EINVAL := 22, ENOTSUP := 95 }

/-- The constants as resolved for a macOS target. -/
def macosLibc : LibcConsts :=
  { MAP_PRIVATE := 2, MAP_SHARED := 1, MAP_ANONYMOUS := 4096, MAP_FIXED := 16,
    PROT_READ := 1, PROT_WRITE := 2, EINVAL := 22, ENOTSUP := 45 }

/-- The interpreter state visible to the two shims: the fixed host
configuration (`page_size`, target `os`), whether the current frame is
in the standard library (`frame_in_std()`), the live allocations and
byte memory of the allocator subsystem, the last-error slot, and a bump
pointer making allocation deterministic. -/
structure Machine where
  pageSize : Nat
  os : String
  frameInStd : Bool
  allocs : List Allocation
  mem : Nat → Nat
  lastError : Int
  nextAlloc : Nat

/-- Result of an interpreter shim: a returned value, an
unsupported-feature abort (`throw_unsup_format!`), or an
undefined-behavior report. -/
inductive InterpResult (α : Type) where
  | ok (val : α)
  | throwUnsup (msg : String)
  | throwUB (msg : String)
deriving Inhabited

/-- The scalar returned by mmap: either a pointer value or the
`MAP_FAILED` sentinel. -/
inductive MmapRet where
  | ptr (addr : Nat)
  | mapFailed
deriving DecidableEq

/-- Modelled from the spec: `round_up(length, page_size)` — the helper
`round_to_next_multiple_of(x, divisor) = ((x + divisor - 1) / divisor) * divisor`
used by both shims (its definition lives outside this repository slice). -/
def round_to_next_multiple_of (x divisor : Nat) : Nat :=
  (x + divisor - 1) / divisor * divisor

/-- Population count with 32 bits of fuel, the Lean rendering of
`i32::count_ones` on the 32-bit pattern of the flags value. -/
def countOnesAux : Nat → Nat → Nat
  | 0, _ => 0
  | fuel + 1, n => n % 2 + countOnesAux fuel (n / 2)

/-- `count_ones` of a 32-bit value. -/
def countOnes (n : Nat) : Nat := countOnesAux 32 n

/-- Modelled from the spec: the last-error setter (`set_last_error`),
a single overwritten slot. -/
def set_last_error (e : Int) (m : Machine) : Machine :=
  { m with lastError := e }

/-- The page alignment of the machine (`this.machine.page_align()`),
which is the alignment value of `page_size`. -/
def pageAlign (m : Machine) : Nat := m.pageSize

/-- Modelled from the spec: the allocation primitive
`allocate(size, align, kind) -> pointer`, assumed to succeed.  It is
rendered as a deterministic bump allocator returning a fresh pointer
aligned to `align`. -/
def allocate (size align : Nat) (kind : MemKind) (m : Machine) : Machine × Nat :=
  let base := round_to_next_multiple_of m.nextAlloc align
  ({ m with
      allocs := ⟨base, size, align, kind⟩ :: m.allocs,
      nextAlloc := base + size },
   base)

/-- The `write_bytes_ptr` call of the mmap shim, specialised to the
all-zero byte iterator it is given: bytes in `[ptr, ptr + len)` become
zero, the rest of memory is untouched. -/
def zeroFill (ptr len : Nat) (m : Machine) : Machine :=
  { m with mem := fun a => if ptr ≤ a ∧ a < ptr + len then 0 else m.mem a }

/-- First live allocation whose base is `ptr`. -/
def findAlloc (ptr : Nat) : List Allocation → Option Allocation
  | [] => none
  | a :: rest => if a.base = ptr then some a else findAlloc ptr rest

/-- Remove the first live allocation whose base is `ptr`. -/
def removeAlloc (ptr : Nat) : List Allocation → List Allocation
  | [] => []
  | a :: rest => if a.base = ptr then rest else a :: removeAlloc ptr rest

/-- Modelled from the spec: the deallocation primitive
`deallocate(pointer, Some((size, align)), kind)`, which fails fatally
(undefined behavior) when there is no live allocation at `pointer` or
when `size`/`align`/`kind` do not exactly match it. -/
def deallocate (ptr size align : Nat) (kind : MemKind) (m : Machine) :
    InterpResult Machine :=
  match findAlloc ptr m.allocs with
  | none => .throwUB "deallocating memory that is not allocated"
  | some a =>
    if a.size = size ∧ a.align = align ∧ a.kind = kind then
      .ok { m with allocs := removeAlloc ptr m.allocs }
    else
      .throwUB "incorrect layout on deallocation"

/-- The allocation tail of the mmap shim (run once every check has
passed): round the length up to a whole number of pages, allocate that
many bytes at page alignment with the mmap kind tag, zero-fill the new
region, and hand back the machine together with the fresh pointer. -/
def mmapAllocatePath (m : Machine) (length : Nat) : Machine × Nat :=
  let mapLength := round_to_next_multiple_of length m.pageSize
  let am := allocate mapLength (pageAlign m) MemKind.mmap m
  (zeroFill am.2 mapLength am.1, am.2)

/-- The macOS guard-page escape hatch condition:
`frame_in_std() && target.os == "macos" && (flags & MAP_FIXED) != 0`. -/
def guardPageHack (libc : LibcConsts) (m : Machine) (flags : Nat) : Bool :=
  m.frameInStd && m.os == "macos" && !(flags &&& libc.MAP_FIXED == 0)

/-- The mmap shim.  Checks run in source order: macOS escape hatch,
visibility-bit count, zero length, file descriptor, MAP_FIXED /
protection, exact flags, offset; then a page-aligned zero-filled
allocation of the rounded-up length. -/
def mmap (libc : LibcConsts) (m : Machine) (addr length prot flags : Nat)
    (fd : Int) (offset : Nat) : InterpResult (Machine × MmapRet) :=
  if guardPageHack libc m flags then
    .ok (m, .ptr addr)
  else if countOnes (flags &&& (libc.MAP_PRIVATE ||| libc.MAP_SHARED)) ≠ 1 then
    .ok (set_last_error libc.EINVAL m, .mapFailed)
  else if length = 0 then
    .ok (set_last_error libc.EINVAL m, .mapFailed)
  else if fd ≠ -1 then
    .throwUnsup "Miri does not support file-backed memory mappings"
  else if flags &&& libc.MAP_FIXED ≠ 0 ∨ prot ≠ (libc.PROT_READ ||| libc.PROT_WRITE) then
    .ok (set_last_error libc.ENOTSUP m, .mapFailed)
  else if flags ≠ (libc.MAP_PRIVATE ||| libc.MAP_ANONYMOUS) then
    .throwUnsup "Miri only supports calls to mmap which set the flags argument to MAP_PRIVATE|MAP_ANONYMOUS"
  else if offset ≠ 0 then
    .throwUnsup "Miri does not support non-zero offsets to mmap"
  else
    .ok ((mmapAllocatePath m length).1, .ptr (mmapAllocatePath m length).2)

/-- The munmap shim: addr must be page-aligned (else a recoverable
EINVAL / -1 result); otherwise the rounded-up length is deallocated as
an mmap-kind allocation, and success returns 0. -/
def munmap (libc : LibcConsts) (m : Machine) (addr length : Nat) :
    InterpResult (Machine × Int) :=
  if addr % m.pageSize ≠ 0 then
    .ok (set_last_error libc.EINVAL m, -1)
  else
    match deallocate addr (round_to_next_multiple_of length m.pageSize)
        (pageAlign m) .mmap m with
    | .ok m2 => .ok (m2, 0)
    | .throwUnsup msg => .throwUnsup msg
    | .throwUB msg => .throwUB msg

/-- Whether an interpreter result is an undefined-behavior report. -/
def isUB {α : Type} : InterpResult α → Bool
  | .throwUB _ => true
  | _ => false

/-- A concrete initial machine used by witnesses: page size 4096, Linux
target, outside the standard library, empty allocator, nonzero memory
everywhere (so zero-initialisation is observable). -/
def m0 : Machine :=
  { pageSize := 4096, os := "linux", frameInStd := false, allocs := [],
    mem := fun _ => 170, lastError := 0, nextAlloc := 0 }

/-- A concrete macOS machine inside the standard library, used to
exercise the guard-page escape hatch. -/
def mMac : Machine :=
  { pageSize := 4096, os := "macos", frameInStd := true, allocs := [],
    mem := fun _ => 170, lastError := 0, nextAlloc := 0 }

example : countOnes 3 = 2 := by decide
example : countOnes (34 &&& 3) = 1 := by decide
example : round_to_next_multiple_of 10 4096 = 4096 := by decide

/-- C4: on a macOS target, with the calling frame in the standard
library and the MAP_FIXED bit set, mmap short-circuits before all other
validation and returns the addr argument as a successful pointer, with
the machine completely unchanged (no allocation, no error write). -/
theorem mmap_macos_guard_page_shortcircuit
    (libc : LibcConsts) (m : Machine) (addr length prot flags : Nat)
    (fd : Int) (offset : Nat)
    (hstd : m.frameInStd = true) (hos : m.os = "macos")
    (hfix : flags &&& libc.MAP_FIXED ≠ 0) :
    mmap libc m addr length prot flags fd offset = .ok (m, .ptr addr) := by
  have hg : guardPageHack libc m flags = true := by
    simp [guardPageHack, hstd, hos, hfix]
  unfold mmap
  rw [if_pos hg]

/-- Witness for C4: a concrete macOS guard-page probe returns its addr
argument unchanged. -/
theorem mmap_macos_guard_page_shortcircuit_witness :
    mMac.frameInStd = true ∧ mMac.os = "macos" ∧ 18 &&& macosLibc.MAP_FIXED ≠ 0 ∧
    mmap macosLibc mMac 12345 4096 3 18 (-1) 0 = .ok (mMac, .ptr 12345) :=
  ⟨rfl, rfl, by decide,
    mmap_macos_guard_page_shortcircuit macosLibc mMac 12345 4096 3 18 (-1) 0
      rfl rfl (by decide)⟩

/-- C8: munmap with an addr that is not a multiple of the page size
returns -1 with EINVAL in the last-error slot, for every length and
every allocation state. -/
theorem munmap_misaligned_einval
    (libc : LibcConsts) (m : Machine) (addr length : Nat)
    (h : addr % m.pageSize ≠ 0) :
    munmap libc m addr length = .ok (set_last_error libc.EINVAL m, -1) := by
  unfold munmap
  rw [if_pos h]

/-- Witness for C8: munmap(4097, 4096) with page size 4096 returns -1
and writes EINVAL (22). -/
theorem munmap_misaligned_einval_witness :
    4097 % m0.pageSize ≠ 0 ∧
    munmap linuxLibc m0 4097 4096 = .ok (set_last_error 22 m0, -1) :=
  ⟨by decide, munmap_misaligned_einval linuxLibc m0 4097 4096 (by decide)⟩

/-- C10: outside the macOS escape hatch, the addr hint argument has no
effect at all — two mmap calls from the same machine state differing
only in addr give the same interpreter result (same machine, same
return value). -/
theorem mmap_addr_hint_irrelevant
    (libc : LibcConsts) (m : Machine) (a1 a2 length prot flags : Nat)
    (fd : Int) (offset : Nat)
    (hhack : guardPageHack libc m flags = false) :
    mmap libc m a1 length prot flags fd offset
      = mmap libc m a2 length prot flags fd offset := by
  unfold mmap
  rw [hhack]
  simp

/-- Witness for C10: a concrete pair of calls differing only in the addr
hint produce equal results. -/
theorem mmap_addr_hint_irrelevant_witness :
    guardPageHack linuxLibc m0 34 = false ∧
    mmap linuxLibc m0 0 10 3 34 (-1) 0 = mmap linuxLibc m0 999 10 3 34 (-1) 0 :=
  ⟨rfl, mmap_addr_hint_irrelevant linuxLibc m0 0 999 10 3 34 (-1) 0 rfl⟩

/-- Counterexample to C6 as stated: a zero-length request that matches
the macOS guard-page escape hatch returns a pointer value, not the
MAP_FAILED sentinel, and does not write EINVAL. -/
theorem mmap_zero_length_hack_counterexample :
    mmap macosLibc mMac 7 0 3 18 (-1) 0 = .ok (mMac, .ptr 7) ∧
    MmapRet.ptr 7 ≠ MmapRet.mapFailed ∧
    mMac.lastError ≠ macosLibc.EINVAL :=
  ⟨rfl, by decide, by decide⟩

/-- C6 (amended): for every map request with length 0 that does not
match the macOS escape hatch, mmap returns MAP_FAILED and writes EINVAL
to the last-error slot. -/
theorem mmap_zero_length_einval
    (libc : LibcConsts) (m : Machine) (addr length prot flags : Nat)
    (fd : Int) (offset : Nat)
    (hhack : guardPageHack libc m flags = false) (hlen : length = 0) :
    mmap libc m addr length prot flags fd offset
      = .ok (set_last_error libc.EINVAL m, .mapFailed) := by
  subst hlen
  unfold mmap
  rw [hhack]
  by_cases hc : countOnes (flags &&& (libc.MAP_PRIVATE ||| libc.MAP_SHARED)) ≠ 1
  · simp [hc]
  · simp [hc]

/-- Witness for amended C6: a concrete zero-length request fails with
EINVAL (22). -/
theorem mmap_zero_length_einval_witness :
    guardPageHack linuxLibc m0 34 = false ∧
    mmap linuxLibc m0 0 0 3 34 (-1) 0 = .ok (set_last_error 22 m0, .mapFailed) :=
  ⟨rfl, mmap_zero_length_einval linuxLibc m0 0 0 3 34 (-1) 0 rfl rfl⟩

/-- Counterexample to C1 as stated: with fd = 0 (not -1) but length 0,
mmap returns a value (the MAP_FAILED sentinel with EINVAL) instead of
terminating in an unsupported-feature abort — the fd check runs only
after the visibility and length checks. -/
theorem mmap_fd_not_abort_counterexample :
    (0 : Int) ≠ -1 ∧
    mmap linuxLibc m0 0 0 3 34 0 0
      = .ok (set_last_error linuxLibc.EINVAL m0, .mapFailed) :=
  ⟨by decide, rfl⟩

/-- C1 (amended): for every map request with fd ≠ -1 that does not match
the macOS escape hatch, has exactly one visibility bit set, and has
nonzero length, mmap terminates in the unsupported-feature abort for
file-backed mappings and returns no value. -/
theorem mmap_file_backed_aborts
    (libc : LibcConsts) (m : Machine) (addr length prot flags : Nat)
    (fd : Int) (offset : Nat)
    (hhack : guardPageHack libc m flags = false)
    (hvis : countOnes (flags &&& (libc.MAP_PRIVATE ||| libc.MAP_SHARED)) = 1)
    (hlen : length ≠ 0) (hfd : fd ≠ -1) :
    mmap libc m addr length prot flags fd offset
      = .throwUnsup "Miri does not support file-backed memory mappings" := by
  unfold mmap
  rw [hhack]
  rw [if_neg (by simp)]
  rw [if_neg (fun h => h hvis)]
  rw [if_neg hlen]
  rw [if_pos hfd]

/-- Masking with 3 is reduction modulo 4. -/
lemma and_three_eq_mod (n : Nat) : n &&& 3 = n % 4 := by
  have h := Nat.and_pow_two_sub_one_eq_mod n 2
  norm_num at h
  exact h

/-- Bit 1 of a value is its mask with 3, masked with 2. -/
lemma and_two_via_mod (n : Nat) : n &&& 2 = n % 4 &&& 2 := by
  rw [← and_three_eq_mod, Nat.and_assoc, show (3 &&& 2 : Nat) = 2 from by decide]

/-- Bit 0 of a value is its mask with 3, masked with 1. -/
lemma and_one_via_mod (n : Nat) : n &&& 1 = n % 4 &&& 1 := by
  rw [← and_three_eq_mod, Nat.and_assoc, show (3 &&& 1 : Nat) = 1 from by decide]

/-- When the two low bits of flags are both set or both clear, the
popcount of `flags &&& 3` is not one. -/
lemma countOnes_and_three_ne_one (flags : Nat)
    (hbits : (flags &&& 2 = 0 ∧ flags &&& 1 = 0) ∨
             (flags &&& 2 ≠ 0 ∧ flags &&& 1 ≠ 0)) :
    countOnes (flags &&& 3) ≠ 1 := by
  rw [and_three_eq_mod]
  rw [and_two_via_mod, and_one_via_mod] at hbits
  have h4 : flags % 4 = 0 ∨ flags % 4 = 1 ∨ flags % 4 = 2 ∨ flags % 4 = 3 := by
    omega
  rcases h4 with h | h | h | h <;> rw [h] at hbits ⊢ <;> revert hbits <;> decide

/-- Counterexample to C5 as stated: a request with both visibility bits
set that also matches the macOS guard-page escape hatch returns a
pointer value, not MAP_FAILED, and does not write EINVAL. -/
theorem mmap_visibility_hack_counterexample :
    19 &&& macosLibc.MAP_PRIVATE ≠ 0 ∧ 19 &&& macosLibc.MAP_SHARED ≠ 0 ∧
    mmap macosLibc mMac 7 4096 3 19 (-1) 0 = .ok (mMac, .ptr 7) ∧
    MmapRet.ptr 7 ≠ MmapRet.mapFailed ∧
    mMac.lastError ≠ macosLibc.EINVAL :=
  ⟨by decide, by decide, rfl, by decide, by decide⟩

/-- C5 (amended): for every map request that does not match the macOS
escape hatch and whose MAP_PRIVATE and MAP_SHARED bits are either both
clear or both set, mmap returns MAP_FAILED and writes EINVAL. -/
theorem mmap_visibility_einval
    (libc : LibcConsts) (m : Machine) (addr length prot flags : Nat)
    (fd : Int) (offset : Nat)
    (hP : libc.MAP_PRIVATE = 2) (hS : libc.MAP_SHARED = 1)
    (hhack : guardPageHack libc m flags = false)
    (hbits : (flags &&& libc.MAP_PRIVATE = 0 ∧ flags &&& libc.MAP_SHARED = 0) ∨
             (flags &&& libc.MAP_PRIVATE ≠ 0 ∧ flags &&& libc.MAP_SHARED ≠ 0)) :
    mmap libc m addr length prot flags fd offset
      = .ok (set_last_error libc.EINVAL m, .mapFailed) := by
  rw [hP, hS] at hbits
  have hc : countOnes (flags &&& (libc.MAP_PRIVATE ||| libc.MAP_SHARED)) ≠ 1 := by
    rw [hP, hS, show (2 ||| 1 : Nat) = 3 from by decide]
    exact countOnes_and_three_ne_one flags hbits
  unfold mmap
  rw [hhack]
  rw [if_neg (by simp)]
  rw [if_pos hc]

/-- Witness for amended C5: flags with both visibility bits set fail
with EINVAL (22). -/
theorem mmap_visibility_einval_witness :
    guardPageHack linuxLibc m0 3 = false ∧
    3 &&& linuxLibc.MAP_PRIVATE ≠ 0 ∧ 3 &&& linuxLibc.MAP_SHARED ≠ 0 ∧
    mmap linuxLibc m0 0 4096 3 3 (-1) 0
      = .ok (set_last_error 22 m0, .mapFailed) :=
  ⟨rfl, by decide, by decide,
    mmap_visibility_einval linuxLibc m0 0 4096 3 3 (-1) 0 rfl rfl rfl
      (Or.inr ⟨by decide, by decide⟩)⟩

/-- C7: once the visibility, length and fd checks have been reached and
passed, a set MAP_FIXED bit or a prot other than exactly
PROT_READ|PROT_WRITE makes mmap return MAP_FAILED with ENOTSUP — a
recoverable failure, not an abort. -/
theorem mmap_enotsup_recoverable
    (libc : LibcConsts) (m : Machine) (addr length prot flags : Nat)
    (fd : Int) (offset : Nat)
    (hhack : guardPageHack libc m flags = false)
    (hvis : countOnes (flags &&& (libc.MAP_PRIVATE ||| libc.MAP_SHARED)) = 1)
    (hlen : length ≠ 0) (hfd : fd = -1)
    (hns : flags &&& libc.MAP_FIXED ≠ 0 ∨ prot ≠ (libc.PROT_READ ||| libc.PROT_WRITE)) :
    mmap libc m addr length prot flags fd offset
      = .ok (set_last_error libc.ENOTSUP m, .mapFailed) := by
  unfold mmap
  rw [hhack]
  rw [if_neg (by simp)]
  rw [if_neg (fun h => h hvis)]
  rw [if_neg hlen]
  rw [if_neg (fun h => h hfd)]
  rw [if_pos hns]

/-- Witness for C7: a read-only protection request fails recoverably
with ENOTSUP (95). -/
theorem mmap_enotsup_recoverable_witness :
    guardPageHack linuxLibc m0 34 = false ∧
    countOnes (34 &&& (linuxLibc.MAP_PRIVATE ||| linuxLibc.MAP_SHARED)) = 1 ∧
    (4096 : Nat) ≠ 0 ∧ (-1 : Int) = -1 ∧
    1 ≠ (linuxLibc.PROT_READ ||| linuxLibc.PROT_WRITE) ∧
    mmap linuxLibc m0 0 4096 1 34 (-1) 0
      = .ok (set_last_error 95 m0, .mapFailed) :=
  ⟨rfl, by decide, by decide, rfl, by decide,
    mmap_enotsup_recoverable linuxLibc m0 0 4096 1 34 (-1) 0 rfl (by decide)
      (by decide) rfl (Or.inr (by decide))⟩

/-- Witness for amended C1: a concrete request with fd = 5 aborts with
the file-backed-mapping message. -/
theorem mmap_file_backed_aborts_witness :
    guardPageHack linuxLibc m0 34 = false ∧
    countOnes (34 &&& (linuxLibc.MAP_PRIVATE ||| linuxLibc.MAP_SHARED)) = 1 ∧
    (4096 : Nat) ≠ 0 ∧ (5 : Int) ≠ -1 ∧
    mmap linuxLibc m0 0 4096 3 34 5 0
      = .throwUnsup "Miri does not support file-backed memory mappings" :=
  ⟨rfl, by decide, by decide, by decide,
    mmap_file_backed_aborts linuxLibc m0 0 4096 3 34 5 0
      rfl (by decide) (by decide) (by decide)⟩

/-- The rounded-up value is a multiple of the divisor. -/
lemma round_to_next_multiple_of_mod (x d : Nat) :
    round_to_next_multiple_of x d % d = 0 :=
  Nat.mul_mod_left _ _

/-- Rounding up to a positive multiple never decreases the value. -/
lemma le_round_to_next_multiple_of (x d : Nat) (hd : 0 < d) :
    x ≤ round_to_next_multiple_of x d := by
  unfold round_to_next_multiple_of
  have h1 := Nat.div_add_mod (x + d - 1) d
  have h2 : (x + d - 1) % d < d := Nat.mod_lt _ hd
  have h3 : (x + d - 1) / d * d = d * ((x + d - 1) / d) := Nat.mul_comm _ _
  omega

/-- Unfolding lemma: searching a nonempty allocation list. -/
lemma findAlloc_cons (p : Nat) (a : Allocation) (l : List Allocation) :
    findAlloc p (a :: l) = if a.base = p then some a else findAlloc p l := rfl

/-- Unfolding lemma: removing from a nonempty allocation list. -/
lemma removeAlloc_cons (p : Nat) (a : Allocation) (l : List Allocation) :
    removeAlloc p (a :: l) = if a.base = p then l else a :: removeAlloc p l := rfl

/-- A base that no live allocation has is not found. -/
lemma findAlloc_eq_none (p : Nat) (l : List Allocation)
    (h : ∀ a ∈ l, a.base ≠ p) : findAlloc p l = none := by
  induction l with
  | nil => rfl
  | cons a rest ih =>
    simp only [findAlloc]
    rw [if_neg (h a (List.mem_cons_self a rest))]
    exact ih fun b hb => h b (List.mem_cons_of_mem a hb)

/-- The pointer produced by the allocation tail is the bump pointer
rounded up to page alignment. -/
lemma mmapAllocatePath_ptr (m : Machine) (length : Nat) :
    (mmapAllocatePath m length).2
      = round_to_next_multiple_of m.nextAlloc m.pageSize := rfl

/-- The allocation tail leaves the page size unchanged. -/
lemma mmapAllocatePath_pageSize (m : Machine) (length : Nat) :
    (mmapAllocatePath m length).1.pageSize = m.pageSize := rfl

/-- The allocation tail pushes exactly one new mmap-kind allocation of
the rounded-up length at page alignment. -/
lemma mmapAllocatePath_allocs (m : Machine) (length : Nat) :
    (mmapAllocatePath m length).1.allocs =
      ⟨(mmapAllocatePath m length).2,
        round_to_next_multiple_of length m.pageSize,
        m.pageSize, MemKind.mmap⟩ :: m.allocs := rfl

/-- Memory after the allocation tail: the new region reads zero, the
rest is the old memory. -/
lemma mmapAllocatePath_mem (m : Machine) (length : Nat) :
    (mmapAllocatePath m length).1.mem = fun a =>
      if (mmapAllocatePath m length).2 ≤ a ∧
          a < (mmapAllocatePath m length).2
                + round_to_next_multiple_of length m.pageSize
      then 0 else m.mem a := rfl

/-- Inversion: outside the escape hatch, a pointer-returning mmap call
can only have come from the allocation tail. -/
lemma mmap_ok_ptr_inv
    (libc : LibcConsts) (m : Machine) (addr length prot flags : Nat)
    (fd : Int) (offset : Nat) (m' : Machine) (p : Nat)
    (hhack : guardPageHack libc m flags = false)
    (hres : mmap libc m addr length prot flags fd offset = .ok (m', .ptr p)) :
    m' = (mmapAllocatePath m length).1 ∧ p = (mmapAllocatePath m length).2 := by
  unfold mmap at hres
  rw [hhack] at hres
  rw [if_neg (by simp : ¬(false = true))] at hres
  split_ifs at hres
  all_goals simp at hres
  exact ⟨hres.1.symm, hres.2.symm⟩

/-- C2: every accepted map request returns a pointer that is a multiple
of the page size, and every byte of the rounded-up region reads zero in
the machine the call returns. -/
theorem mmap_accepted_aligned_zeroed
    (libc : LibcConsts) (m : Machine) (addr length prot flags : Nat)
    (fd : Int) (offset : Nat) (m' : Machine) (p : Nat)
    (hhack : guardPageHack libc m flags = false)
    (hres : mmap libc m addr length prot flags fd offset = .ok (m', .ptr p)) :
    p % m.pageSize = 0 ∧
    ∀ b : Nat, b < round_to_next_multiple_of length m.pageSize →
      m'.mem (p + b) = 0 := by
  obtain ⟨hm, hp⟩ := mmap_ok_ptr_inv libc m addr length prot flags fd offset
    m' p hhack hres
  subst hm
  subst hp
  constructor
  · rw [mmapAllocatePath_ptr]
    exact round_to_next_multiple_of_mod _ _
  · intro b hb
    have hmem := congrFun (mmapAllocatePath_mem m length)
      ((mmapAllocatePath m length).2 + b)
    rw [hmem, if_pos ⟨Nat.le_add_right _ _, Nat.add_lt_add_left hb _⟩]

/-- Witness for C2: the concrete accepted request map(0, 10, RW,
PRIVATE|ANONYMOUS, -1, 0) on page size 4096 returns an aligned pointer
and a zeroed byte where the initial memory held 170. -/
theorem mmap_accepted_aligned_zeroed_witness :
    0 % m0.pageSize = 0 ∧ (mmapAllocatePath m0 10).1.mem 100 = 0 := by
  have hres : mmap linuxLibc m0 0 10 3 34 (-1) 0
      = .ok ((mmapAllocatePath m0 10).1, .ptr 0) := rfl
  have h := mmap_accepted_aligned_zeroed linuxLibc m0 0 10 3 34 (-1) 0
    (mmapAllocatePath m0 10).1 0 rfl hres
  refine ⟨h.1, ?_⟩
  have h100 := h.2 100 (by decide)
  simpa using h100

/-- Extract the integer code of an unmap result, when it returned one. -/
def unmapCode : InterpResult (Machine × Int) → Option Int
  | .ok (_, r) => some r
  | _ => none

/-- The machine an unmap call returned, or the fallback if it aborted. -/
def unmapMachineOr (fallback : Machine) : InterpResult (Machine × Int) → Machine
  | .ok (m2, _) => m2
  | _ => fallback

/-- C3: an accepted map request of length L producing pointer p can be
unmapped once with any length that rounds up to the same page count —
that call returns 0 — and a second munmap on the same p afterwards is
an undefined-behavior report, not a returned error. -/
theorem mmap_munmap_roundtrip_double_free
    (libc : LibcConsts) (m : Machine) (addr length prot flags : Nat)
    (fd : Int) (offset : Nat) (m' : Machine) (p L2 : Nat)
    (hpg : 0 < m.pageSize)
    (hwf : ∀ a ∈ m.allocs, a.base < m.nextAlloc)
    (hhack : guardPageHack libc m flags = false)
    (hres : mmap libc m addr length prot flags fd offset = .ok (m', .ptr p))
    (hL : round_to_next_multiple_of L2 m.pageSize
            = round_to_next_multiple_of length m.pageSize) :
    ∃ m2 : Machine, munmap libc m' p L2 = .ok (m2, 0) ∧
      ∀ L3 : Nat, isUB (munmap libc m2 p L3) = true := by
  obtain ⟨hm, hp⟩ := mmap_ok_ptr_inv libc m addr length prot flags fd offset
    m' p hhack hres
  subst hm
  subst hp
  have hpal : (mmapAllocatePath m length).2 % (mmapAllocatePath m length).1.pageSize = 0 := by
    rw [mmapAllocatePath_pageSize, mmapAllocatePath_ptr]
    exact round_to_next_multiple_of_mod _ _
  refine ⟨{ (mmapAllocatePath m length).1 with allocs := m.allocs }, ?_, ?_⟩
  · unfold munmap
    rw [if_neg (fun h => h hpal)]
    have hde : deallocate (mmapAllocatePath m length).2
        (round_to_next_multiple_of L2 (mmapAllocatePath m length).1.pageSize)
        (pageAlign (mmapAllocatePath m length).1) MemKind.mmap
        (mmapAllocatePath m length).1
        = .ok { (mmapAllocatePath m length).1 with allocs := m.allocs } := by
      rw [mmapAllocatePath_pageSize, hL]
      unfold deallocate
      rw [mmapAllocatePath_allocs, findAlloc_cons,
        if_pos (rfl : (⟨(mmapAllocatePath m length).2,
          round_to_next_multiple_of length m.pageSize,
          m.pageSize, MemKind.mmap⟩ : Allocation).base
            = (mmapAllocatePath m length).2)]
      show (if _ ∧ _ ∧ _ then _ else _) = _
      rw [if_pos ⟨rfl, rfl, rfl⟩, removeAlloc_cons,
        if_pos (rfl : (⟨(mmapAllocatePath m length).2,
          round_to_next_multiple_of length m.pageSize,
          m.pageSize, MemKind.mmap⟩ : Allocation).base
            = (mmapAllocatePath m length).2)]
    rw [hde]
  · intro L3
    have hnone : findAlloc (mmapAllocatePath m length).2 m.allocs = none := by
      apply findAlloc_eq_none
      intro a ha
      have hlt : a.base < m.nextAlloc := hwf a ha
      have hle : m.nextAlloc ≤ (mmapAllocatePath m length).2 := by
        rw [mmapAllocatePath_ptr]
        exact le_round_to_next_multiple_of _ _ hpg
      exact Nat.ne_of_lt (lt_of_lt_of_le hlt hle)
    unfold munmap
    rw [if_neg (fun h => h hpal)]
    unfold deallocate
    rw [show ({ (mmapAllocatePath m length).1 with allocs := m.allocs } : Machine).allocs
          = m.allocs from rfl, hnone]
    rfl

/-- Witness for C3: concrete scenario — map length 10, unmap the
returned pointer with length 10 (both round to one 4096-byte page)
returns 0, and unmapping the same pointer again is undefined
behavior. -/
theorem mmap_munmap_roundtrip_double_free_witness :
    unmapCode (munmap linuxLibc (mmapAllocatePath m0 10).1 0 10) = some 0 ∧
    isUB (munmap linuxLibc
      (unmapMachineOr m0 (munmap linuxLibc (mmapAllocatePath m0 10).1 0 10))
      0 4096) = true := by
  have hres : mmap linuxLibc m0 0 10 3 34 (-1) 0
      = .ok ((mmapAllocatePath m0 10).1, .ptr 0) := rfl
  obtain ⟨m2, h1, h2⟩ := mmap_munmap_roundtrip_double_free linuxLibc m0 0 10 3
    34 (-1) 0 (mmapAllocatePath m0 10).1 0 10 (by decide)
    (by intro a ha; simp [m0] at ha) rfl hres rfl
  rw [h1]
  exact ⟨rfl, h2 4096⟩

/-- C9: whenever mmap returns the MAP_FAILED sentinel, the returned
machine is the input machine with only the last-error slot rewritten
(to EINVAL or ENOTSUP); and the allocation list changes only when every
validation check of the shim has passed. -/
theorem mmap_reject_only_error_slot
    (libc : LibcConsts) (m : Machine) (addr length prot flags : Nat)
    (fd : Int) (offset : Nat) (m' : Machine) (ret : MmapRet)
    (hres : mmap libc m addr length prot flags fd offset = .ok (m', ret)) :
    (ret = MmapRet.mapFailed →
       m' = set_last_error libc.EINVAL m ∨ m' = set_last_error libc.ENOTSUP m) ∧
    (m'.allocs ≠ m.allocs →
       guardPageHack libc m flags = false ∧
       countOnes (flags &&& (libc.MAP_PRIVATE ||| libc.MAP_SHARED)) = 1 ∧
       length ≠ 0 ∧ fd = -1 ∧
       flags &&& libc.MAP_FIXED = 0 ∧
       prot = (libc.PROT_READ ||| libc.PROT_WRITE) ∧
       flags = (libc.MAP_PRIVATE ||| libc.MAP_ANONYMOUS) ∧ offset = 0) := by
  unfold mmap at hres
  split_ifs at hres with h1 h2 h3 h4 h5 h6 h7
  · -- macOS escape hatch: machine unchanged, pointer returned
    obtain ⟨he, hr⟩ : m = m' ∧ MmapRet.ptr addr = ret := by
      simpa using hres
    subst he
    subst hr
    exact ⟨fun hmf => absurd hmf (by simp), fun hne => absurd rfl hne⟩
  · -- visibility EINVAL
    obtain ⟨he, hr⟩ : set_last_error libc.EINVAL m = m' ∧ MmapRet.mapFailed = ret := by
      simpa using hres
    subst he
    subst hr
    exact ⟨fun _ => Or.inl rfl, fun hne => absurd rfl hne⟩
  · -- zero length EINVAL
    obtain ⟨he, hr⟩ : set_last_error libc.EINVAL m = m' ∧ MmapRet.mapFailed = ret := by
      simpa using hres
    subst he
    subst hr
    exact ⟨fun _ => Or.inl rfl, fun hne => absurd rfl hne⟩
  · -- MAP_FIXED / protection ENOTSUP (the three abort branches return
    -- no machine at all and are discharged during the case split)
    obtain ⟨he, hr⟩ : set_last_error libc.ENOTSUP m = m' ∧ MmapRet.mapFailed = ret := by
      simpa using hres
    subst he
    subst hr
    exact ⟨fun _ => Or.inr rfl, fun hne => absurd rfl hne⟩
  · -- accepted: every check passed
    obtain ⟨he, hr⟩ : (mmapAllocatePath m length).1 = m'
        ∧ MmapRet.ptr (mmapAllocatePath m length).2 = ret := by
      simpa using hres
    subst he
    subst hr
    refine ⟨fun hmf => absurd hmf (by simp), fun _ => ?_⟩
    obtain ⟨h5a, h5b⟩ := not_or.mp h5
    exact ⟨Bool.eq_false_iff.mpr h1, not_ne_iff.mp h2, h3, not_ne_iff.mp h4,
      not_ne_iff.mp h5a, not_ne_iff.mp h5b, not_ne_iff.mp h6, not_ne_iff.mp h7⟩

/-- Witness for C9: a rejected request (both visibility bits set) leaves
the allocation list unchanged and only writes EINVAL (22) to the error
slot. -/
theorem mmap_reject_only_error_slot_witness :
    unmapCode (InterpResult.ok (set_last_error 22 m0, (0 : Int))) = some 0 ∨
    ((set_last_error linuxLibc.EINVAL m0).allocs = m0.allocs ∧
      (set_last_error linuxLibc.EINVAL m0).lastError = 22) := by
  have hres : mmap linuxLibc m0 0 4096 3 3 (-1) 0
      = .ok (set_last_error linuxLibc.EINVAL m0, .mapFailed) := rfl
  have h := (mmap_reject_only_error_slot linuxLibc m0 0 4096 3 3 (-1) 0
    (set_last_error linuxLibc.EINVAL m0) .mapFailed hres).1 rfl
  rcases h with h | h
  · exact Or.inr ⟨congrArg Machine.allocs h ▸ rfl, rfl⟩
  · exact absurd (congrArg Machine.lastError h) (by decide)

end MiriMem
